import Mathlib

/-!
Shallow embedding of the lstack-org/helm-operator reconciliation engine,
translated from the Go sources:

* `pkg/release/release.go` — chart preparation, sync-action decision, the
  goto-style action loop, and the app-manager post-renderer;
* `pkg/chartsync/oss.go` and the unnamed chartsync file — cloud-credential
  decoding (base64 + AES block modes + PKCS7);
* the unnamed operator file — the work-queue worker and sync handler.

External collaborators (Helm client, Kubernetes API, object-store SDKs,
the v2-to-v3 converter, the AES block primitive from Go's crypto library)
are modelled as explicit environments / function parameters, so every
branch of the repository's own code is represented faithfully.
-/

namespace HelmOperator

/-- Modelled from the spec: the Helm release status enum (`pkg/helm` is not
part of the provided sources).  The spec names the transient states
pending-install, pending-upgrade and uninstalling as the ones in which an
upgrade would conflict; all other states allow an upgrade. -/
inductive RelStatus where
  | deployed
  | uninstalled
  | superseded
  | failed
  | pendingInstall
  | pendingUpgrade
  | uninstalling
  deriving DecidableEq

/-- Modelled from the spec: `AllowsUpgrade` on a release status is false
exactly for the transient states. -/
def RelStatus.allowsUpgrade : RelStatus → Bool
  | .pendingInstall => false
  | .pendingUpgrade => false
  | .uninstalling => false
  | _ => true

/-- The fields of a Helm release the engine consults
(`helm.Release` in Go: name/namespace omitted, they are fixed per sync). -/
structure HelmRel where
  version : Int
  relStatus : RelStatus
  manifest : String
  deriving DecidableEq

/-- Helm version enum (`v1.HelmV2` / `v1.HelmV3`). -/
inductive HelmVer where
  | v2
  | v3
  deriving DecidableEq

/-- `v1.GitChartSource` fields consulted by `prepareChart`. -/
structure GitChartSource where
  gitURL : String
  path : String
  skipDepUpdate : Bool
  deriving DecidableEq

/-- `v1.RepoChartSource` fields consulted by `prepareChart`. -/
structure RepoChartSource where
  repoURL : String
  name : String
  version : String
  deriving DecidableEq

/-- `v1.Customize` fields consulted by `prepareChart`. -/
structure CustomizeSource where
  key : String
  useCache : Bool
  deriving DecidableEq

/-- `v1.Oss` (cloud object-store chart source), from `pkg/chartsync/oss.go`
usage sites. -/
structure Oss where
  cloudProvider : String
  regionId : String
  bucket : String
  key : String
  ackId : String
  ackSecret : String
  ackEncrypted : Bool
  useCache : Bool
  deriving DecidableEq

/-- `v1.Test` sub-spec fields consulted by the action loop. -/
structure TestSpec where
  enable : Bool
  ignoreFailures : Bool
  deriving DecidableEq

/-- `v1.Rollback` sub-spec fields consulted by the action loop. -/
structure RollbackSpec where
  enable : Bool
  deriving DecidableEq

/-- The `HelmRelease` spec fields the engine consults. -/
structure HelmReleaseSpec where
  gitChartSource : Option GitChartSource
  repoChartSource : Option RepoChartSource
  customize : Option CustomizeSource
  oss : Option Oss
  helmVersion : Option HelmVer
  appId : String
  componentId : String
  istioEnabled : Bool
  logCollect : Bool
  test : TestSpec
  rollback : RollbackSpec
  deriving DecidableEq

/-- The `HelmRelease` status fields the engine consults.  `rolledBack` and
`retryUpgrade` reflect the `status.HasRolledBack` / `status.ShouldRetryUpgrade`
condition lookups (the `pkg/status` package is not part of the provided
sources; the spec describes them as "a rollback was previously observed" and
the retry-upgrade policy). -/
structure HrStatus where
  observedGeneration : Int
  lastAttemptedRevision : String
  rolledBack : Bool
  retryUpgrade : Bool
  deriving DecidableEq

/-- The `HelmRelease` custom resource: generation, the
`helm.fluxcd.io/migrate` annotation (presence and value), spec and status. -/
structure HelmRelease where
  generation : Int
  hasMigrateAnn : Bool
  migrateAnnVal : String
  spec : HelmReleaseSpec
  hrStatus : HrStatus
  deriving DecidableEq

/-- `hr.GetHelmVersion(defaultVersion)`: the spec value, or the global
default when unspecified. -/
def HelmRelease.getHelmVersion (hr : HelmRelease) (d : HelmVer) : HelmVer :=
  hr.spec.helmVersion.getD d

/-- Modelled from the spec: `status.HasSynced` — the CR has been synced to
its current generation iff `observedGeneration` has caught up with
`generation` ("observedGeneration < generation" means not yet synced). -/
def hasSynced (hr : HelmRelease) : Bool :=
  hr.generation ≤ hr.hrStatus.observedGeneration

/-- Modelled from the spec: `status.HasRolledBack` — a rollback was
previously observed (the rolled-back condition on the status). -/
def hasRolledBack (hr : HelmRelease) : Bool :=
  hr.hrStatus.rolledBack

/-- Modelled from the spec: `status.ShouldRetryUpgrade` — the retry-upgrade
policy consulted after an observed rollback. -/
def shouldRetryUpgrade (hr : HelmRelease) : Bool :=
  hr.hrStatus.retryUpgrade

/-- The fixed action enum of `pkg/release/release.go`. -/
inductive Action where
  | install
  | upgrade
  | migrate
  | skip
  | rollback
  | uninstall
  | dryRunCompare
  | annotate
  | test
  deriving DecidableEq

/-- Which error branch of `determineSyncAction` produced a `Skip`. -/
inductive SyncErr where
  | getFailed
  | v2CheckFailed
  | ownershipFailed
  | notManaged
  | upgradeDisallowed
  | historyFailed
  deriving DecidableEq

/-- Results of the external calls `determineSyncAction` makes:
`client.Get`, `converter.V2ReleaseExists`, `managedByHelmRelease`
(ownership flag plus antecedent), and `client.History`. -/
structure SyncEnv where
  getCur : Except Unit (Option HelmRel)
  v2ReleaseExists : Except Unit Bool
  managedBy : Except Unit (Bool × String)
  history : Except Unit (List HelmRel)

/-- The internal `chart` structure of `pkg/release/release.go`. -/
structure Chart where
  chartPath : String
  revision : String
  changed : Bool
  deriving DecidableEq

/-- `determineSyncAction` from `pkg/release/release.go`: decides the action
for a `HelmRelease` given the chart and the results of the external calls.
Returns the action, the current release to compare against, and which error
(if any) forced a skip. -/
def determineSyncAction (defaultVer : HelmVer) (env : SyncEnv) (hr : HelmRelease)
    (chart : Chart) : Action × Option HelmRel × Option SyncErr :=
  match env.getCur with
  | .error _ => (.skip, none, some .getFailed)
  | .ok none =>
    -- no existing release: possibly migrate, else install
    if hr.hasMigrateAnn then
      match hr.getHelmVersion defaultVer with
      | .v3 =>
        match env.v2ReleaseExists with
        | .error _ => (.skip, none, some .v2CheckFailed)
        | .ok true => (.migrate, none, none)
        | .ok false => (.install, none, none)
      | .v2 => (.install, none, none)
    else (.install, none, none)
  | .ok (some curRel) =>
    match env.managedBy with
    | .error _ => (.skip, none, some .ownershipFailed)
    | .ok (managed, _) =>
      if !managed then (.skip, none, some .notManaged)
      else if !curRel.relStatus.allowsUpgrade then (.skip, none, some .upgradeDisallowed)
      else if !hasSynced hr then (.upgrade, some curRel, none)
      else if hasRolledBack hr then
        if chart.changed || shouldRetryUpgrade hr then (.upgrade, some curRel, none)
        else
          match env.history with
          | .error _ => (.skip, none, some .historyFailed)
          | .ok hist =>
            -- first history entry with status Failed or Superseded replaces curRel
            let sel := hist.find? fun r =>
              r.relStatus == RelStatus.failed || r.relStatus == RelStatus.superseded
            (.dryRunCompare, some (sel.getD curRel), none)
      else if chart.changed then (.upgrade, some curRel, none)
      else (.dryRunCompare, some curRel, none)

/-- External calls the action loop can make (Helm client operations, the
v2-to-v3 converter, the out-of-band annotate, the git mirror delete).
Status-subresource writes and metric observations are not modelled. -/
inductive Effect where
  | dryRunCall
  | installCall
  | convertCall
  | upgradeCall
  | testCall
  | getLatestCall
  | rollbackCall
  | annotateCall
  | uninstallCall
  | gitSourceDeleteCall
  deriving DecidableEq

/-- Which failure was appended to the error collection of `run`. -/
inductive RunErr where
  | dryRunFailed
  | installFailed
  | migrateFailed
  | upgradeFailed
  | testFailed
  | rollbackGetFailed
  | rollbackFailed
  deriving DecidableEq

/-- Results of the external calls `run` can make. -/
structure RunEnv where
  dryRun : Except Unit (HelmRel × String)
  installRes : Except Unit HelmRel
  convertRes : Except Unit Unit
  upgradeRes : Except Unit HelmRel
  testRes : Except Unit Unit
  getLatest : Except Unit HelmRel
  rollbackRes : Except Unit HelmRel
  annotateRes : Except Unit Unit
  uninstallRes : Except Unit Unit

/-- The mutable locals of `run`: the release to compare against, the release
produced by the last action, and the accumulated error collection. -/
structure RunSt where
  curRel : Option HelmRel
  newRel : Option HelmRel
  errs : List RunErr
  deriving DecidableEq

/-- The observable outcome of `run`: the sequence of actions visited, the
external calls made in order, the error collection, and whether the Go code
would have panicked (nil-pointer dereference). -/
structure RunRes where
  trace : List Action
  effects : List Effect
  errs : List RunErr
  panicked : Bool
  deriving DecidableEq

/-- Prefix the current action and its external calls onto the outcome of the
action transitioned to (the `goto next` of the Go code). -/
def RunRes.step (a : Action) (es : List Effect) (r : RunRes) : RunRes :=
  ⟨a :: r.trace, es ++ r.effects, r.errs, r.panicked⟩

/-- A decreasing measure on actions: every `goto` in `run` strictly lowers
it (the transition graph of the Go code is acyclic). -/
def Action.rank : Action → Nat
  | .dryRunCompare => 5
  | .install => 5
  | .migrate => 5
  | .upgrade => 4
  | .test => 3
  | .rollback => 2
  | .annotate => 1
  | .uninstall => 1
  | .skip => 1

/-- `run` from `pkg/release/release.go`: the goto-style action loop.  Each
branch mirrors the corresponding `case` of the Go `switch`, with the
external call results supplied by `env`. -/
def run (env : RunEnv) (hr : HelmRelease) (a : Action) (st : RunSt) : RunRes :=
  match a with
  | .dryRunCompare =>
    match st.curRel with
    -- the log line dereferences curRel.Version
    | none => ⟨[.dryRunCompare], [], st.errs, true⟩
    | some _ =>
      match env.dryRun with
      | .error _ => ⟨[.dryRunCompare], [.dryRunCall], st.errs ++ [.dryRunFailed], false⟩
      | .ok (dryRel, diff) =>
        if diff ≠ "" then
          RunRes.step .dryRunCompare [.dryRunCall]
            (run env hr .upgrade { st with newRel := some dryRel })
        else ⟨[.dryRunCompare], [.dryRunCall], st.errs, false⟩
  | .install =>
    match env.installRes with
    | .error _ =>
      RunRes.step .install [.installCall]
        (run env hr .uninstall { st with newRel := none, errs := st.errs ++ [.installFailed] })
    | .ok rel =>
      RunRes.step .install [.installCall]
        (run env hr .test { st with newRel := some rel })
  | .migrate =>
    -- dry-run unless the migrate annotation is literally "true";
    -- the converter never yields a release, so newRel becomes nil
    match env.convertRes with
    | .error _ => ⟨[.migrate], [.convertCall], st.errs ++ [.migrateFailed], false⟩
    | .ok _ =>
      if hr.migrateAnnVal = "true" then
        RunRes.step .migrate [.convertCall] (run env hr .upgrade { st with newRel := none })
      else
        RunRes.step .migrate [.convertCall] (run env hr .skip { st with newRel := none })
  | .upgrade =>
    match env.upgradeRes with
    | .error _ =>
      RunRes.step .upgrade [.upgradeCall]
        (run env hr .rollback { st with newRel := none, errs := st.errs ++ [.upgradeFailed] })
    | .ok rel =>
      RunRes.step .upgrade [.upgradeCall]
        (run env hr .test { st with newRel := some rel })
  | .test =>
    if hr.spec.test.enable then
      match env.testRes with
      | .error _ =>
        if !hr.spec.test.ignoreFailures then
          match st.curRel with
          | none =>
            RunRes.step .test [.testCall]
              (run env hr .uninstall { st with errs := st.errs ++ [.testFailed] })
          | some _ =>
            RunRes.step .test [.testCall]
              (run env hr .rollback { st with errs := st.errs ++ [.testFailed] })
        else
          RunRes.step .test [.testCall]
            (run env hr .annotate { st with errs := st.errs ++ [.testFailed] })
      | .ok _ => RunRes.step .test [.testCall] (run env hr .annotate st)
    else RunRes.step .test [] (run env hr .annotate st)
  | .annotate =>
    -- annotate errors are only logged as warnings
    ⟨[.annotate], [.annotateCall], st.errs, false⟩
  | .rollback =>
    if hr.spec.rollback.enable then
      match env.getLatest with
      | .error _ => ⟨[.rollback], [.getLatestCall], st.errs ++ [.rollbackGetFailed], false⟩
      | .ok latest =>
        match st.curRel with
        -- the comparison dereferences curRel.Version
        | none => ⟨[.rollback], [.getLatestCall], st.errs, true⟩
        | some cur =>
          if cur.version < latest.version then
            match env.rollbackRes with
            | .error _ =>
              ⟨[.rollback], [.getLatestCall, .rollbackCall], st.errs ++ [.rollbackFailed], false⟩
            | .ok rel =>
              RunRes.step .rollback [.getLatestCall, .rollbackCall]
                (run env hr .annotate { st with newRel := some rel })
          else ⟨[.rollback], [.getLatestCall], st.errs, false⟩
    else ⟨[.rollback], [], st.errs, false⟩
  | .uninstall =>
    -- uninstall errors are only logged; a git chart source is also dropped
    ⟨[.uninstall],
      .uninstallCall :: (if hr.spec.gitChartSource.isSome then [.gitSourceDeleteCall] else []),
      st.errs, false⟩
  | .skip => ⟨[.skip], [], st.errs, false⟩
termination_by a.rank
decreasing_by all_goals decide

/-! ## Work-queue worker (operator controller) -/

/-- A dequeued work item: the expected namespace/name string, or a payload
of any other type. -/
inductive QItem where
  | str (key : String)
  | malformed
  deriving DecidableEq

/-- How the lister `Get` inside `syncHandler` failed. -/
inductive GetHrErr where
  | notFound
  | other
  deriving DecidableEq

/-- Kubernetes events `syncHandler` can record. -/
inductive Event where
  | warningFailedReleaseSync
  | normalReleaseSynced
  deriving DecidableEq

/-- Results of the external calls `syncHandler` makes: key splitting, lock
acquisition, the lister lookup, and the per-CR `Sync`. -/
structure WorkerEnv where
  splitOk : Bool
  lockOk : Bool
  getHr : Except GetHrErr Unit
  syncOk : Bool

/-- `syncHandler` from the operator controller: returns whether a non-nil
error was returned to the worker, and the events recorded.  Note the Go
code returns nil after a failed `Sync` — it only records a Warning event. -/
def syncHandler (env : WorkerEnv) : Bool × List Event :=
  if !env.splitOk then (false, [])
  else if !env.lockOk then (false, [])
  else
    match env.getHr with
    | .error .notFound => (false, [])
    | .error .other => (true, [])
    | .ok _ =>
      if env.syncOk then (false, [.normalReleaseSynced])
      else (false, [.warningFailedReleaseSync])

/-- The observable outcome of one `processNextWorkItem` iteration. -/
structure WorkerRes where
  doneCalled : Bool
  forgetCalled : Bool
  handleErrorCalled : Bool
  events : List Event
  keepRunning : Bool
  deriving DecidableEq

/-- `processNextWorkItem` from the operator controller.  `none` models the
queue reporting shutdown. -/
def processNextWorkItem (env : WorkerEnv) : Option QItem → WorkerRes
  | none => ⟨false, false, false, [], false⟩
  | some .malformed => ⟨true, true, true, [], true⟩
  | some (.str _) =>
    let res := syncHandler env
    if res.1 then ⟨true, false, true, res.2, true⟩
    else ⟨true, true, false, res.2, true⟩

/-! ## Chart preparation -/

/-- External fetch-side calls `prepareChart` can make. -/
inductive FetchEffect where
  | gitMirrorFetch
  | depUpdate
  | repoFetch
  | customizeDownload
  | ossDownload
  | revisionProbe
  deriving DecidableEq

/-- Results of the external calls `prepareChart` makes. -/
structure PrepEnv where
  gitMirror : Except Unit (String × String)
  changedFilesCount : Nat
  depUpdateRes : Except Unit Unit
  ensureChartFetched : Except Unit String
  downloadFileRes : Except Unit String
  ossDownloadRes : Except Unit String
  chartRevision : Except Unit String

/-- The release `Config` fields `prepareChart` consults. -/
structure PrepCfg where
  chartCache : String
  updateDeps : Bool
  deriving DecidableEq

/-- How `prepareChart` failed. -/
inductive PrepErr where
  | fetchFailed
  | unknownCloudProvider
  | noValidSource
  deriving DecidableEq

/-- The guard of the git case of the `prepareChart` switch:
`hr.Spec.GitChartSource != nil && hr.Spec.GitURL != "" && hr.Spec.Path != ""`. -/
def gitGuard (s : HelmReleaseSpec) : Bool :=
  match s.gitChartSource with
  | some g => g.gitURL != "" && g.path != ""
  | none => false

/-- The guard of the repo case of the `prepareChart` switch. -/
def repoGuard (s : HelmReleaseSpec) : Bool :=
  match s.repoChartSource with
  | some rcs => rcs.repoURL != "" && rcs.name != "" && rcs.version != ""
  | none => false

/-- The guard of the customize case of the `prepareChart` switch. -/
def customizeGuard (s : HelmReleaseSpec) : Bool :=
  match s.customize with
  | some c => c.key != ""
  | none => false

/-- The guard of the oss case of the `prepareChart` switch. -/
def ossGuard (s : HelmReleaseSpec) : Bool :=
  s.oss.isSome

/-- The oss case of `prepareChart`: provider construction (failing on an
unknown cloud provider), download, revision probe. -/
def prepareChartOss (env : PrepEnv) (hr : HelmRelease) (o : Oss) :
    Except PrepErr (Chart × Bool) × List FetchEffect :=
  if o.cloudProvider == "aliyun" || o.cloudProvider == "huaweiyun" then
    match env.ossDownloadRes with
    | .error _ => (.error .fetchFailed, [.ossDownload])
    | .ok chartPath =>
      match env.chartRevision with
      | .error _ => (.error .fetchFailed, [.ossDownload, .revisionProbe])
      | .ok revision =>
        (.ok (⟨chartPath, revision, hr.hrStatus.lastAttemptedRevision != revision⟩, false),
          [.ossDownload, .revisionProbe])
  else (.error .unknownCloudProvider, [])

/-- The customize case of `prepareChart`, falling through to the oss case. -/
def prepareChartCustomize (env : PrepEnv) (hr : HelmRelease) :
    Except PrepErr (Chart × Bool) × List FetchEffect :=
  match hr.spec.customize with
  | some c =>
    if c.key != "" then
      match env.downloadFileRes with
      | .error _ => (.error .fetchFailed, [.customizeDownload])
      | .ok chartPath =>
        match env.chartRevision with
        | .error _ => (.error .fetchFailed, [.customizeDownload, .revisionProbe])
        | .ok revision =>
          (.ok (⟨chartPath, revision, hr.hrStatus.lastAttemptedRevision != revision⟩, false),
            [.customizeDownload, .revisionProbe])
    else
      match hr.spec.oss with
      | some o => prepareChartOss env hr o
      | none => (.error .noValidSource, [])
  | none =>
    match hr.spec.oss with
    | some o => prepareChartOss env hr o
    | none => (.error .noValidSource, [])

/-- The repo case of `prepareChart`, falling through to the later cases. -/
def prepareChartRepo (env : PrepEnv) (hr : HelmRelease) :
    Except PrepErr (Chart × Bool) × List FetchEffect :=
  if repoGuard hr.spec then
    match env.ensureChartFetched with
    | .error _ => (.error .fetchFailed, [.repoFetch])
    | .ok chartPath =>
      match env.chartRevision with
      | .error _ => (.error .fetchFailed, [.repoFetch, .revisionProbe])
      | .ok revision =>
        (.ok (⟨chartPath, revision, hr.hrStatus.lastAttemptedRevision != revision⟩, false),
          [.repoFetch, .revisionProbe])
  else prepareChartCustomize env hr

/-- `prepareChart` from `pkg/release/release.go`: a switch over the chart
sources in declaration order (git, repo, customize, oss) whose first
matching case wins; no case matching is the "could not find valid chart
source configuration for release" error.  Returns the chart, whether a
cleanup handle was produced, and the external fetch calls made. -/
def prepareChart (cfg : PrepCfg) (env : PrepEnv) (hr : HelmRelease) :
    Except PrepErr (Chart × Bool) × List FetchEffect :=
  match hr.spec.gitChartSource with
  | some g =>
    if g.gitURL != "" && g.path != "" then
      match env.gitMirror with
      | .error _ => (.error .fetchFailed, [.gitMirrorFetch])
      | .ok (dir, revision) =>
        let chartPath := dir ++ "/" ++ g.path
        let changed := decide (0 < env.changedFilesCount)
        if cfg.updateDeps && !g.skipDepUpdate then
          match env.depUpdateRes with
          | .error _ => (.error .fetchFailed, [.gitMirrorFetch, .depUpdate])
          | .ok _ => (.ok (⟨chartPath, revision, changed⟩, true), [.gitMirrorFetch, .depUpdate])
        else (.ok (⟨chartPath, revision, changed⟩, true), [.gitMirrorFetch])
    else prepareChartRepo env hr
  | none => prepareChartRepo env hr

/-! ## Post-render transformer -/

/-- A string-to-string Kubernetes label/annotation map, as an association
list observed through `Smap.get`. -/
abbrev Smap := List (String × String)

/-- Map lookup (Go map read with presence flag). -/
def Smap.get (m : Smap) (k : String) : Option String :=
  (m.find? (fun p => p.1 == k)).map (fun p => p.2)

/-- Map assignment (Go `m[k] = v`). -/
def Smap.set (m : Smap) (k v : String) : Smap :=
  m.filter (fun p => p.1 != k) ++ [(k, v)]

/-- The fields of a rendered manifest document the transformer touches:
kind, name, `metadata.labels`, metadata annotations,
`.spec.selector.matchLabels` and `.spec.template.metadata.labels`
(`none` = the nested path is absent / the map is nil). -/
structure UDoc where
  kind : String
  name : String
  labels : Option Smap
  anns : Option Smap
  matchLabels : Option Smap
  templateLabels : Option Smap
  deriving DecidableEq

/-- Label keys from `pkg/release/release.go`. -/
def AppIdLabelKey : String := "oam.runtime.app.id"

/-- Label keys from `pkg/release/release.go`. -/
def ComponentIdLabelKey : String := "oam.runtime.component.id"

/-- Label keys from `pkg/release/release.go`. -/
def IstioEnableLabelKey : String := "istio-injection"

/-- Label value from `pkg/release/release.go`. -/
def IstioEnableLabelValue : String := "enabled"

/-- Annotation key from `pkg/release/release.go`. -/
def LogCollectAnnotateKey : String := "logCollect"

/-- `appInfoInject`: put `appId`/`componentId` into both the selector match
labels and the pod template labels (creating the maps when absent). -/
def appInfoInject (spec : HelmReleaseSpec) (target : UDoc) : UDoc :=
  let matchLabels := (target.matchLabels.getD []).set AppIdLabelKey spec.appId
    |>.set ComponentIdLabelKey spec.componentId
  let templateLabels := (target.templateLabels.getD []).set AppIdLabelKey spec.appId
    |>.set ComponentIdLabelKey spec.componentId
  { target with matchLabels := some matchLabels, templateLabels := some templateLabels }

/-- `istioInject`: put `istio-injection=enabled` into both the selector
match labels and the pod template labels. -/
def istioInject (target : UDoc) : UDoc :=
  let matchLabels := (target.matchLabels.getD []).set IstioEnableLabelKey IstioEnableLabelValue
  let templateLabels :=
    (target.templateLabels.getD []).set IstioEnableLabelKey IstioEnableLabelValue
  { target with matchLabels := some matchLabels, templateLabels := some templateLabels }

/-- The live-cluster lookup of the workload the transformer is about to
emit: absent, a lookup error, or found with its current template labels. -/
inductive LiveLookup where
  | notFound
  | lookupErr
  | found (templateLabels : Option Smap)

/-- Per-document cluster interactions of `istioInjectHandle`: the live
lookup and the result of `deleteOldRes` (the delete call; the wait loop
always returns nil). -/
structure IstioEnv where
  live : LiveLookup
  deleteRes : Except Unit Unit

/-- `istioInjectHandle`: reconcile the mesh-sidecar toggle against the live
object, deleting it when the toggle flipped (selectors are immutable).
Returns the possibly-modified document and whether an error occurred
(errors are logged by the caller, and the returned document is used). -/
def istioInjectHandle (env : IstioEnv) (target : UDoc) (istioFlag : Bool) :
    UDoc × Bool :=
  match env.live with
  | .lookupErr => (target, true)
  | .notFound => (if istioFlag then istioInject target else target, false)
  | .found tmplLabels =>
    let value := (tmplLabels.getD []).get IstioEnableLabelKey
    if istioFlag then
      if value ≠ some IstioEnableLabelValue then
        match env.deleteRes with
        | .error _ => (target, true)
        | .ok _ => (istioInject target, false)
      else (istioInject target, false)
    else
      if value = some IstioEnableLabelValue then
        match env.deleteRes with
        | .error _ => (target, true)
        | .ok _ => (target, false)
      else (target, false)

/-- The per-document body of the post-renderer loop: set top-level
`appId`/`componentId` labels on every document; for StatefulSet and
Deployment kinds additionally set the `logCollect` annotation
(`strconv.FormatBool`) and run `appInfoInject` + `istioInjectHandle`. -/
def renderDoc (spec : HelmReleaseSpec) (env : IstioEnv) (u0 : UDoc) : UDoc :=
  let labels := ((u0.labels.getD []).set AppIdLabelKey spec.appId).set
    ComponentIdLabelKey spec.componentId
  let u1 := { u0 with labels := some labels }
  let u2 :=
    if u1.kind = "StatefulSet" ∨ u1.kind = "Deployment" then
      { u1 with anns := some ((u1.anns.getD []).set LogCollectAnnotateKey
          (if spec.logCollect then "true" else "false")) }
    else u1
  if u2.kind = "StatefulSet" ∨ u2.kind = "Deployment" then
    (istioInjectHandle env (appInfoInject spec u2) spec.istioEnabled).1
  else u2

/-- `getAppManagerPostRenderer` from `pkg/release/release.go`: when the
Kubernetes client cannot be constructed the manifests are returned
unmodified; otherwise every document is rewritten by `renderDoc` (with its
own live-cluster interactions). -/
def getAppManagerPostRenderer (spec : HelmReleaseSpec) (clientOk : Bool)
    (envf : UDoc → IstioEnv) (docs : List UDoc) : List UDoc :=
  if clientOk then docs.map (fun u => renderDoc spec (envf u) u) else docs

/-! ## Credential envelope (base64 + AES block modes + PKCS7)

Bytes are modelled as `Nat` (values < 256 where it matters); Go strings are
raw byte sequences, so plaintexts/ciphertext bytes are `List Nat` and the
base64 text is a Lean `String` over the ASCII alphabet.  The AES-128 block
primitive lives in Go's crypto library (outside this repository) and is
passed in as a function pair. -/

/-- The outcome of a Go computation that may panic. -/
inductive POr (α : Type) where
  | panicked
  | ok (a : α)
  deriving DecidableEq

/-- The standard base64 alphabet (Go `base64.StdEncoding`). -/
def b64StdAlphabet : List Char :=
  "ABCDEFGHIJKLMNOPQRSTUVWXYZabcdefghijklmnopqrstuvwxyz0123456789+/".data

/-- The URL-safe base64 alphabet (Go `base64.URLEncoding` /
`base64.RawURLEncoding`). -/
def b64URLAlphabet : List Char :=
  "ABCDEFGHIJKLMNOPQRSTUVWXYZabcdefghijklmnopqrstuvwxyz0123456789-_".data

/-- The character for a sextet value. -/
def sextetChar (alphabet : List Char) (i : Nat) : Char :=
  alphabet.getD i (Char.ofNat 65)

/-- The sextet value of a character, `none` when not in the alphabet. -/
def charSextet (alphabet : List Char) (c : Char) : Option Nat :=
  List.indexOf? c alphabet

/-- Decode every element or fail on the first failure (the Go decoders
error out at the first invalid character). -/
def mapOption {α β : Type} (f : α → Option β) : List α → Option (List β)
  | [] => some []
  | a :: l =>
    match f a, mapOption f l with
    | some b, some bl => some (b :: bl)
    | _, _ => none

/-- Bytes to base64 sextet values (three bytes per four sextets, with the
unpadded remainder encoding of the raw encodings). -/
def b64EncSextets : List Nat → List Nat
  | [] => []
  | [a] => [a / 4, a % 4 * 16]
  | [a, b] => [a / 4, a % 4 * 16 + b / 16, b % 16 * 4]
  | a :: b :: c :: rest =>
    a / 4 :: (a % 4 * 16 + b / 16) :: (b % 16 * 4 + c / 64) :: c % 64 :: b64EncSextets rest

/-- Base64 sextet values back to bytes; a single trailing sextet is
malformed.  Go's non-strict decoding ignores trailing bits, so no
zero-trailing-bits check is made. -/
def b64DecSextets : List Nat → Option (List Nat)
  | [] => some []
  | [_] => none
  | [s1, s2] => some [s1 * 4 + s2 / 16]
  | [s1, s2, s3] => some [s1 * 4 + s2 / 16, s2 % 16 * 16 + s3 / 4]
  | s1 :: s2 :: s3 :: s4 :: rest =>
    (b64DecSextets rest).map fun tl =>
      (s1 * 4 + s2 / 16) :: (s2 % 16 * 16 + s3 / 4) :: (s3 % 4 * 64 + s4) :: tl

/-- Go `base64.RawURLEncoding.EncodeToString`. -/
def rawURLEncode (bs : List Nat) : String :=
  ⟨(b64EncSextets bs).map (sextetChar b64URLAlphabet)⟩

/-- Go `base64.RawURLEncoding.DecodeString` (unpadded, URL-safe).  `none`
models a decode error; the whitespace skipping of Go's decoder is not
modelled (no input here contains whitespace). -/
def rawURLDecode (s : String) : Option (List Nat) :=
  match mapOption (charSextet b64URLAlphabet) s.data with
  | none => none
  | some sextets => b64DecSextets sextets

/-- Go `base64.StdEncoding.DecodeString` (padded, standard alphabet). -/
def stdB64Decode (s : String) : Option (List Nat) :=
  let cs := s.data
  if cs.length % 4 ≠ 0 then none
  else
    let t := (cs.reverse.takeWhile (fun c => c == '=')).length
    if 2 < t then none
    else
      match mapOption (charSextet b64StdAlphabet) (cs.take (cs.length - t)) with
      | none => none
      | some sextets => b64DecSextets sextets

/-- Modelled from the spec: PKCS7 padding to the block size (the encrypt
side `AesEncrypt` is referenced by the repository's test but absent from
the provided sources). -/
def pkcs7Pad (blockSize : Nat) (data : List Nat) : List Nat :=
  let padLen := blockSize - data.length % blockSize
  data ++ List.replicate padLen padLen

/-- `PKCS7UnPadding` from the unnamed chartsync file: read the last byte as
the pad length and drop that many bytes.  Panics (`none`) on an empty
buffer (index out of range) and when the pad length exceeds the buffer
(negative slice bound). -/
def PKCS7UnPadding (origData : List Nat) : Option (List Nat) :=
  match origData.getLast? with
  | none => none
  | some unPadding =>
    if origData.length < unPadding then none
    else some (origData.take (origData.length - unPadding))

/-- CBC encryption (Go `cipher.NewCBCEncrypter` with `CryptBlocks`): each
plaintext block is XORed with the previous ciphertext block (the IV first)
before the block cipher is applied. -/
def cbcEncryptBlocks (encB : List Nat → List Nat) (iv : List Nat)
    (input : List Nat) : List Nat :=
  if input.isEmpty then []
  else
    let c := encB (List.zipWith Nat.xor (input.take 16) iv)
    c ++ cbcEncryptBlocks encB c (input.drop 16)
termination_by input.length
decreasing_by
  rename_i h
  have hne : input ≠ [] := fun he => h (by simp [he])
  have hpos : 0 < input.length := List.length_pos.mpr hne
  simp only [List.length_drop]
  omega

/-- CBC decryption (Go `cipher.NewCBCDecrypter` with `CryptBlocks`): each
ciphertext block is decrypted and XORed with the previous ciphertext block
(the IV first). -/
def cbcDecryptBlocks (decB : List Nat → List Nat) (iv : List Nat)
    (input : List Nat) : List Nat :=
  if input.isEmpty then []
  else
    let blk := input.take 16
    List.zipWith Nat.xor (decB blk) iv ++ cbcDecryptBlocks decB blk (input.drop 16)
termination_by input.length
decreasing_by
  rename_i h
  have hne : input ≠ [] := fun he => h (by simp [he])
  have hpos : 0 < input.length := List.length_pos.mpr hne
  simp only [List.length_drop]
  omega

/-- Raw per-block decryption (the hand-rolled loop of `AESDecrypt` in
`pkg/chartsync/oss.go`, effectively ECB). -/
def ecbDecryptBlocks (decB : List Nat → List Nat) (input : List Nat) : List Nat :=
  if input.isEmpty then []
  else decB (input.take 16) ++ ecbDecryptBlocks decB (input.drop 16)
termination_by input.length
decreasing_by
  rename_i h
  have hne : input ≠ [] := fun he => h (by simp [he])
  have hpos : 0 < input.length := List.length_pos.mpr hne
  simp only [List.length_drop]
  omega

/-- The fixed 16-byte AES key literal `"2367943245267894"`. -/
def aesKey : List Nat := "2367943245267894".data.map Char.toNat

/-- `AesDecrypt` from the unnamed chartsync file: raw-URL base64 decode
(the error is discarded in the source; on malformed input Go would hand the
decoded prefix to the cipher — modelled as the empty byte list, which
agrees with Go on every well-formed input), CBC decryption under `aesKey`
with IV = key, then PKCS7 unpadding.  No `recover` protects this path, so
the possible panics — `CryptBlocks` on a length that is not a multiple of
the block size, and `PKCS7UnPadding` on an empty or over-padded buffer —
propagate (`POr.panicked`). -/
def AesDecrypt (decB : List Nat → List Nat) (ciphertext : String) : POr (List Nat) :=
  let decryptedByte := (rawURLDecode ciphertext).getD []
  if decryptedByte.length % 16 ≠ 0 then .panicked
  else
    match PKCS7UnPadding (cbcDecryptBlocks decB aesKey decryptedByte) with
    | none => .panicked
    | some orig => .ok orig

/-- Modelled from the spec: `AesEncrypt` (absent from the provided sources,
referenced by the repository's test) produces
`base64url(aes-cbc-pkcs7(plaintext, key="2367943245267894", iv=key[:16]))`
in the unpadded URL-safe encoding `AesDecrypt` expects. -/
def AesEncrypt (encB : List Nat → List Nat) (plaintext : List Nat) : String :=
  rawURLEncode (cbcEncryptBlocks encB aesKey (pkcs7Pad 16 plaintext))

/-- `AESDecrypt` from `pkg/chartsync/oss.go`: per-block raw decryption,
then trim of `int(last byte)` bytes.  Panics (`POr.panicked`) when the
input is not a multiple of the block size (the loop slices past the end)
and when the trim count exceeds the length (negative slice bound). -/
def AESDecrypt (decB : List Nat → List Nat) (encrypted : List Nat) : POr (List Nat) :=
  if encrypted.length % 16 ≠ 0 then .panicked
  else
    let decrypted := ecbDecryptBlocks decB encrypted
    match decrypted.getLast? with
    | none => .ok []
    | some last =>
      if decrypted.length < last then .panicked
      else .ok (decrypted.take (decrypted.length - last))

/-- The body of `Decrypt` from `pkg/chartsync/oss.go`, before the deferred
recover is taken into account: standard base64 decode (error returned),
then `AESDecrypt`, whose panics propagate to the defer. -/
def DecryptBody (decB : List Nat → List Nat) (encrypted : String) :
    POr (Except Unit (List Nat)) :=
  match stdB64Decode encrypted with
  | none => .ok (.error ())
  | some bytes =>
    match AESDecrypt decB bytes with
    | .panicked => .panicked
    | .ok d => .ok (.ok d)

/-- `Decrypt` from `pkg/chartsync/oss.go`: the deferred `recover` catches
any panic from the body and logs it, after which the function returns its
zero values (empty string, nil error). -/
def Decrypt (decB : List Nat → List Nat) (encrypted : String) :
    Except Unit (List Nat) :=
  match DecryptBody decB encrypted with
  | .panicked => .ok []
  | .ok r => r

/-- Go `string(bytes)` for the decrypted credential (raw bytes viewed as a
string; injective on byte values). -/
def stringOfBytes (bs : List Nat) : String :=
  ⟨bs.map Char.ofNat⟩

/-- `AckDecode` from `pkg/chartsync/oss.go`: when `ackEncrypted`, decrypt
`ackId` and `ackSecret` (propagating decrypt errors before any field is
assigned) and store the plaintexts back; otherwise leave the spec alone. -/
def AckDecode (decB : List Nat → List Nat) (o : Oss) : Except Unit Oss :=
  if o.ackEncrypted then
    match Decrypt decB o.ackId with
    | .error e => .error e
    | .ok ackId =>
      match Decrypt decB o.ackSecret with
      | .error e => .error e
      | .ok ackSecret =>
        .ok { o with ackId := stringOfBytes ackId, ackSecret := stringOfBytes ackSecret }
  else .ok o

/-! ## Concrete fixtures used by witnesses and counterexamples -/

/-- A git chart source passing the guard of the git switch case. -/
def sampleGit : GitChartSource := ⟨"https://example.com/repo.git", "charts/app", false⟩

/-- A repo chart source passing the guard of the repo switch case. -/
def sampleRepoSrc : RepoChartSource := ⟨"https://charts.example.com", "app", "1.0.0"⟩

/-- A deployed current release at version 2. -/
def sampleRel : HelmRel := ⟨2, .deployed, "kind: ConfigMap"⟩

/-- A release at version 3, used as Helm call results. -/
def relNew : HelmRel := ⟨3, .deployed, "kind: ConfigMap"⟩

/-- A spec with no chart source configured. -/
def specNoSrc : HelmReleaseSpec :=
  ⟨none, none, none, none, none, "app-1", "comp-1", false, false, ⟨false, false⟩, ⟨false⟩⟩

/-- A CR whose observed generation is behind its generation. -/
def hrBehind : HelmRelease := ⟨3, false, "", specNoSrc, ⟨2, "1.0.0", false, false⟩⟩

/-- A CR synced to its generation, no rollback observed. -/
def hrSynced : HelmRelease := ⟨3, false, "", specNoSrc, ⟨3, "1.0.0", false, false⟩⟩

/-- A CR carrying the migrate annotation with value "true". -/
def hrMigrate : HelmRelease := ⟨1, true, "true", specNoSrc, ⟨0, "", false, false⟩⟩

/-- An environment with an owned, upgradable current release. -/
def envCur : SyncEnv := ⟨.ok (some sampleRel), .ok false, .ok (true, ""), .ok []⟩

/-- An environment with no current release and a failing v2-existence check. -/
def envNoCur : SyncEnv := ⟨.ok none, .error (), .ok (true, ""), .ok []⟩

/-- An environment with no current release and an existing v2 release. -/
def envV2Exists : SyncEnv := ⟨.ok none, .ok true, .ok (true, ""), .ok []⟩

/-- A chart whose revision differs from the last attempted one. -/
def chartChanged : Chart := ⟨"/tmp/chart", "1.1.0", true⟩

/-- A chart whose revision matches the last attempted one. -/
def chartSame : Chart := ⟨"/tmp/chart", "1.0.0", false⟩

/-! ## C1 -/

/-- C1: for every HelmRelease whose current Helm release exists, is owned by
the CR, and whose status allows upgrade, `determineSyncAction` returns
Upgrade when the observed generation is behind the generation; otherwise
(no prior rollback observed) it returns Upgrade exactly when the chart
changed and DryRunCompare when it did not. -/
theorem c1_synced_decision (defaultVer : HelmVer) (env : SyncEnv) (hr : HelmRelease)
    (chart : Chart) (curRel : HelmRel) (ant : String)
    (hget : env.getCur = .ok (some curRel))
    (hmg : env.managedBy = .ok (true, ant))
    (hup : curRel.relStatus.allowsUpgrade = true) :
    (hr.hrStatus.observedGeneration < hr.generation →
      determineSyncAction defaultVer env hr chart = (.upgrade, some curRel, none))
    ∧ (hr.generation ≤ hr.hrStatus.observedGeneration →
        hr.hrStatus.rolledBack = false →
        (chart.changed = true →
          determineSyncAction defaultVer env hr chart = (.upgrade, some curRel, none))
        ∧ (chart.changed = false →
          determineSyncAction defaultVer env hr chart = (.dryRunCompare, some curRel, none))) := by
  constructor
  · intro hgen
    have hns : ¬(hr.generation ≤ hr.hrStatus.observedGeneration) := by omega
    simp [determineSyncAction, hget, hmg, hup, hasSynced, hns]
  · intro hgen hrb
    have hs : hr.generation ≤ hr.hrStatus.observedGeneration := hgen
    constructor
    · intro hch
      simp [determineSyncAction, hget, hmg, hup, hasSynced, hasRolledBack, hs, hrb, hch]
    · intro hch
      simp [determineSyncAction, hget, hmg, hup, hasSynced, hasRolledBack, hs, hrb, hch]

/-- C1 witness: the three branches exercised on concrete inputs. -/
theorem c1_synced_decision_witness :
    determineSyncAction .v3 envCur hrBehind chartSame = (.upgrade, some sampleRel, none)
    ∧ determineSyncAction .v3 envCur hrSynced chartChanged = (.upgrade, some sampleRel, none)
    ∧ determineSyncAction .v3 envCur hrSynced chartSame = (.dryRunCompare, some sampleRel, none) :=
  ⟨(c1_synced_decision .v3 envCur hrBehind chartSame sampleRel "" rfl rfl rfl).1 (by decide),
   ((c1_synced_decision .v3 envCur hrSynced chartChanged sampleRel "" rfl rfl rfl).2
     (by decide) rfl).1 rfl,
   ((c1_synced_decision .v3 envCur hrSynced chartSame sampleRel "" rfl rfl rfl).2
     (by decide) rfl).2 rfl⟩

/-! ## C2 -/

/-- C2 counterexample: with no current release, the migrate annotation
present and effective Helm version v3, a failing v2-existence check
produces Skip with an error — neither Migrate nor Install — refuting the
claim that every no-current-release case other than the Migrate one
returns Install. -/
theorem c2_counterexample :
    envNoCur.getCur = .ok none
    ∧ hrMigrate.hasMigrateAnn = true
    ∧ hrMigrate.getHelmVersion .v3 = .v3
    ∧ determineSyncAction .v3 envNoCur hrMigrate chartSame = (.skip, none, some .v2CheckFailed) :=
  ⟨rfl, rfl, rfl, rfl⟩

/-- C2 amended: with no current release, `determineSyncAction` returns
Migrate exactly when the migrate annotation is present, the effective Helm
version is v3, and the v2 release exists; when that existence check fails
it returns Skip with an error; in every other no-current-release case it
returns Install. -/
theorem c2_no_release_decision (defaultVer : HelmVer) (env : SyncEnv) (hr : HelmRelease)
    (chart : Chart) (hget : env.getCur = .ok none) :
    (hr.hasMigrateAnn = true → hr.getHelmVersion defaultVer = .v3 →
      env.v2ReleaseExists = .ok true →
      determineSyncAction defaultVer env hr chart = (.migrate, none, none))
    ∧ (hr.hasMigrateAnn = true → hr.getHelmVersion defaultVer = .v3 →
      env.v2ReleaseExists = .error () →
      determineSyncAction defaultVer env hr chart = (.skip, none, some .v2CheckFailed))
    ∧ (hr.hasMigrateAnn = true → hr.getHelmVersion defaultVer = .v3 →
      env.v2ReleaseExists = .ok false →
      determineSyncAction defaultVer env hr chart = (.install, none, none))
    ∧ (hr.hasMigrateAnn = false →
      determineSyncAction defaultVer env hr chart = (.install, none, none))
    ∧ (hr.getHelmVersion defaultVer = .v2 →
      determineSyncAction defaultVer env hr chart = (.install, none, none)) := by
  refine ⟨?_, ?_, ?_, ?_, ?_⟩
  · intro ha hv h2
    simp [determineSyncAction, hget, ha, hv, h2]
  · intro ha hv h2
    simp [determineSyncAction, hget, ha, hv, h2]
  · intro ha hv h2
    simp [determineSyncAction, hget, ha, hv, h2]
  · intro ha
    simp [determineSyncAction, hget, ha]
  · intro hv
    by_cases ha : hr.hasMigrateAnn <;> simp [determineSyncAction, hget, ha, hv]

/-- C2 witness: the Migrate branch on a concrete input. -/
theorem c2_no_release_decision_witness :
    determineSyncAction .v3 envV2Exists hrMigrate chartSame = (.migrate, none, none) :=
  (c2_no_release_decision .v3 envV2Exists hrMigrate chartSame rfl).1 rfl rfl rfl

/-! ## C3 and C7: the action loop -/

/-- An environment whose install and upgrade calls fail. -/
def runEnvFail : RunEnv :=
  ⟨.ok (relNew, ""), .error (), .ok (), .error (), .ok (), .ok relNew, .ok relNew, .ok (), .ok ()⟩

/-- An environment whose external calls all succeed. -/
def runEnvOk : RunEnv :=
  ⟨.ok (relNew, ""), .ok relNew, .ok (), .ok relNew, .ok (), .ok relNew, .ok relNew, .ok (), .ok ()⟩

/-- An environment where only the rollback call fails. -/
def runEnvRbFail : RunEnv := { runEnvOk with rollbackRes := .error () }

/-- The state at loop entry after a decision with current release. -/
def st0 : RunSt := ⟨some sampleRel, none, []⟩

/-- A loop state whose current release is ahead of the latest release. -/
def stAhead : RunSt := ⟨some relNew, none, []⟩

/-- A CR with rollback enabled in the spec. -/
def hrRb : HelmRelease :=
  { hrSynced with spec := { specNoSrc with rollback := ⟨true⟩ } }

/-- C3: in the action loop, a failing Install Helm call appends the error
and transitions to Uninstall while a successful one transitions to Test;
a failing Upgrade Helm call appends the error and transitions to Rollback
while a successful one transitions to Test. -/
theorem c3_install_upgrade_transitions :
    (∀ env hr st, env.installRes = .error () →
      run env hr .install st =
        RunRes.step .install [.installCall]
          (run env hr .uninstall { st with newRel := none, errs := st.errs ++ [.installFailed] }))
    ∧ (∀ env hr st rel, env.installRes = .ok rel →
      run env hr .install st =
        RunRes.step .install [.installCall] (run env hr .test { st with newRel := some rel }))
    ∧ (∀ env hr st, env.upgradeRes = .error () →
      run env hr .upgrade st =
        RunRes.step .upgrade [.upgradeCall]
          (run env hr .rollback { st with newRel := none, errs := st.errs ++ [.upgradeFailed] }))
    ∧ (∀ env hr st rel, env.upgradeRes = .ok rel →
      run env hr .upgrade st =
        RunRes.step .upgrade [.upgradeCall] (run env hr .test { st with newRel := some rel })) := by
  refine ⟨?_, ?_, ?_, ?_⟩
  · intro env hr st h
    conv_lhs => rw [run]
    simp [h]
  · intro env hr st rel h
    conv_lhs => rw [run]
    simp [h]
  · intro env hr st h
    conv_lhs => rw [run]
    simp [h]
  · intro env hr st rel h
    conv_lhs => rw [run]
    simp [h]

/-- C3 witness: the four transitions exercised on concrete inputs. -/
theorem c3_install_upgrade_transitions_witness :
    run runEnvFail hrSynced .install st0 =
      RunRes.step .install [.installCall]
        (run runEnvFail hrSynced .uninstall { st0 with newRel := none, errs := st0.errs ++ [.installFailed] })
    ∧ run runEnvOk hrSynced .install st0 =
      RunRes.step .install [.installCall] (run runEnvOk hrSynced .test { st0 with newRel := some relNew })
    ∧ run runEnvFail hrSynced .upgrade st0 =
      RunRes.step .upgrade [.upgradeCall]
        (run runEnvFail hrSynced .rollback { st0 with newRel := none, errs := st0.errs ++ [.upgradeFailed] })
    ∧ run runEnvOk hrSynced .upgrade st0 =
      RunRes.step .upgrade [.upgradeCall] (run runEnvOk hrSynced .test { st0 with newRel := some relNew }) :=
  ⟨c3_install_upgrade_transitions.1 runEnvFail hrSynced st0 rfl,
   c3_install_upgrade_transitions.2.1 runEnvOk hrSynced st0 relNew rfl,
   c3_install_upgrade_transitions.2.2.1 runEnvFail hrSynced st0 rfl,
   c3_install_upgrade_transitions.2.2.2 runEnvOk hrSynced st0 relNew rfl⟩

/-- C7: the Rollback action performs a rollback only when
`spec.rollback.enable` is true and the latest release version is strictly
greater than the current one; on success it transitions to Annotate; on
rollback failure it appends the error and terminates without further
transitions. -/
theorem c7_rollback_behavior :
    (∀ env hr st, hr.spec.rollback.enable = false →
      run env hr .rollback st = ⟨[.rollback], [], st.errs, false⟩)
    ∧ (∀ env hr st cur latest, hr.spec.rollback.enable = true →
      st.curRel = some cur → env.getLatest = .ok latest →
      ¬(cur.version < latest.version) →
      run env hr .rollback st = ⟨[.rollback], [.getLatestCall], st.errs, false⟩)
    ∧ (∀ env hr st cur latest rel, hr.spec.rollback.enable = true →
      st.curRel = some cur → env.getLatest = .ok latest →
      cur.version < latest.version → env.rollbackRes = .ok rel →
      run env hr .rollback st =
        RunRes.step .rollback [.getLatestCall, .rollbackCall]
          (run env hr .annotate { st with newRel := some rel }))
    ∧ (∀ env hr st cur latest, hr.spec.rollback.enable = true →
      st.curRel = some cur → env.getLatest = .ok latest →
      cur.version < latest.version → env.rollbackRes = .error () →
      run env hr .rollback st =
        ⟨[.rollback], [.getLatestCall, .rollbackCall], st.errs ++ [.rollbackFailed], false⟩) := by
  refine ⟨?_, ?_, ?_, ?_⟩
  · intro env hr st h
    rw [run]
    simp [h]
  · intro env hr st cur latest he hc hg hv
    rw [run]
    simp [he, hc, hg, hv]
  · intro env hr st cur latest rel he hc hg hv hr2
    conv_lhs => rw [run]
    simp [he, hc, hg, hv, hr2]
  · intro env hr st cur latest he hc hg hv hr2
    rw [run]
    simp [he, hc, hg, hv, hr2]

/-- C7 witness: the four rollback behaviors exercised on concrete inputs. -/
theorem c7_rollback_behavior_witness :
    run runEnvOk hrSynced .rollback st0 = ⟨[.rollback], [], st0.errs, false⟩
    ∧ run runEnvOk hrRb .rollback stAhead = ⟨[.rollback], [.getLatestCall], stAhead.errs, false⟩
    ∧ run runEnvOk hrRb .rollback st0 =
      RunRes.step .rollback [.getLatestCall, .rollbackCall]
        (run runEnvOk hrRb .annotate { st0 with newRel := some relNew })
    ∧ run runEnvRbFail hrRb .rollback st0 =
      ⟨[.rollback], [.getLatestCall, .rollbackCall], st0.errs ++ [.rollbackFailed], false⟩ :=
  ⟨c7_rollback_behavior.1 runEnvOk hrSynced st0 rfl,
   c7_rollback_behavior.2.1 runEnvOk hrRb stAhead relNew relNew rfl rfl rfl (by decide),
   c7_rollback_behavior.2.2.1 runEnvOk hrRb st0 sampleRel relNew relNew rfl rfl rfl (by decide) rfl,
   c7_rollback_behavior.2.2.2 runEnvRbFail hrRb st0 sampleRel relNew rfl rfl rfl (by decide) rfl⟩

/-! ## C5: the work-queue worker -/

/-- A worker environment in which everything succeeds except the per-CR
`Sync` call. -/
def envSyncFail : WorkerEnv := ⟨true, true, .ok (), false⟩

/-- C5 counterexample: when the per-CR `Sync` fails, `syncHandler` records
a Warning event but returns nil, so `processNextWorkItem` Forgets the item
instead of leaving it for retry — refuting the final clause of the claim. -/
theorem c5_counterexample :
    envSyncFail.syncOk = false
    ∧ processNextWorkItem envSyncFail (some (.str "default/my-release")) =
        ⟨true, true, false, [.warningFailedReleaseSync], true⟩ :=
  ⟨rfl, rfl⟩

/-- C5 amended: a non-nil error returned by `syncHandler` leaves the item
on the queue (no Forget); a nil return Forgets it; a malformed payload is
Forgotten and logged; but a failed per-CR `Sync` only records a Warning
event — `syncHandler` returns nil and the item is Forgotten, not retried
(only a failed non-NotFound HelmRelease lookup produces a retry). -/
theorem c5_worker_queue (env : WorkerEnv) (key : String) :
    ((syncHandler env).1 = true →
      processNextWorkItem env (some (.str key)) = ⟨true, false, true, (syncHandler env).2, true⟩)
    ∧ ((syncHandler env).1 = false →
      processNextWorkItem env (some (.str key)) = ⟨true, true, false, (syncHandler env).2, true⟩)
    ∧ processNextWorkItem env (some .malformed) = ⟨true, true, true, [], true⟩
    ∧ (env.splitOk = true → env.lockOk = true → env.getHr = .ok () → env.syncOk = false →
      processNextWorkItem env (some (.str key)) =
        ⟨true, true, false, [.warningFailedReleaseSync], true⟩)
    ∧ (env.splitOk = true → env.lockOk = true → env.getHr = .error .other →
      processNextWorkItem env (some (.str key)) = ⟨true, false, true, [], true⟩) := by
  refine ⟨?_, ?_, rfl, ?_, ?_⟩
  · intro h
    simp [processNextWorkItem, h]
  · intro h
    simp [processNextWorkItem, h]
  · intro hs hl hg hsync
    simp [processNextWorkItem, syncHandler, hs, hl, hg, hsync]
  · intro hs hl hg
    simp [processNextWorkItem, syncHandler, hs, hl, hg]

/-- C5 amended witness: the retry case (lookup error), the Forget-on-success
case, and the Forget-on-sync-failure case on concrete inputs. -/
theorem c5_worker_queue_witness :
    processNextWorkItem ⟨true, true, .error .other, true⟩ (some (.str "ns/app")) =
      ⟨true, false, true, [], true⟩
    ∧ processNextWorkItem ⟨true, true, .ok (), true⟩ (some (.str "ns/app")) =
      ⟨true, true, false, [.normalReleaseSynced], true⟩
    ∧ processNextWorkItem envSyncFail (some (.str "ns/app")) =
      ⟨true, true, false, [.warningFailedReleaseSync], true⟩ :=
  ⟨(c5_worker_queue ⟨true, true, .error .other, true⟩ "ns/app").2.2.2.2 rfl rfl rfl,
   (c5_worker_queue ⟨true, true, .ok (), true⟩ "ns/app").2.1 rfl,
   (c5_worker_queue envSyncFail "ns/app").2.2.2.1 rfl rfl rfl rfl⟩

/-! ## C4: chart source selection -/

/-- A spec with two valid chart sources configured at once. -/
def specTwoSources : HelmReleaseSpec :=
  { specNoSrc with gitChartSource := some sampleGit, repoChartSource := some sampleRepoSrc }

/-- A CR with two valid chart sources configured at once. -/
def hrTwoSources : HelmRelease := { hrSynced with spec := specTwoSources }

/-- A fetch environment in which every external call succeeds. -/
def prepEnvOk : PrepEnv :=
  ⟨.ok ("/exports/mirror", "abc123"), 1, .ok (), .ok "/tmp/app-1.0.0.tgz", .ok "/tmp/keyfile",
    .ok "/tmp/ossfile", .ok "1.0.0"⟩

/-- The release config used by the fixtures. -/
def prepCfg : PrepCfg := ⟨"/tmp", false⟩

/-- C4 counterexample: with both a git and a repo source set (ambiguous
spec), `prepareChart` does not return the no-valid-chart-source error and
does perform a fetch — it silently uses the git source, the first matching
case of the switch. -/
theorem c4_counterexample :
    gitGuard specTwoSources = true
    ∧ repoGuard specTwoSources = true
    ∧ prepareChart prepCfg prepEnvOk hrTwoSources =
        (.ok (⟨"/exports/mirror/charts/app", "abc123", true⟩, true), [.gitMirrorFetch]) :=
  ⟨rfl, rfl, rfl⟩

/-- When the git guard fails, `prepareChart` falls through to the repo
case. -/
theorem prepareChart_no_git (cfg : PrepCfg) (env : PrepEnv) (hr : HelmRelease)
    (hg : gitGuard hr.spec = false) :
    prepareChart cfg env hr = prepareChartRepo env hr := by
  cases hgs : hr.spec.gitChartSource with
  | none => simp [prepareChart, hgs]
  | some g =>
    rw [gitGuard, hgs] at hg
    simp at hg
    by_cases h : g.gitURL = ""
    · simp [prepareChart, hgs, h]
    · simp [prepareChart, hgs, h, hg h]

/-- When the repo guard fails, `prepareChartRepo` falls through to the
customize case. -/
theorem prepareChartRepo_no_repo (env : PrepEnv) (hr : HelmRelease)
    (hrp : repoGuard hr.spec = false) :
    prepareChartRepo env hr = prepareChartCustomize env hr := by
  simp [prepareChartRepo, hrp]

/-- When the customize guard fails and no oss source is set, the chain ends
in the no-valid-chart-source error with no fetch. -/
theorem prepareChartCustomize_no_source (env : PrepEnv) (hr : HelmRelease)
    (hc : customizeGuard hr.spec = false) (ho : hr.spec.oss = none) :
    prepareChartCustomize env hr = (.error .noValidSource, []) := by
  cases hcs : hr.spec.customize with
  | none => simp [prepareChartCustomize, hcs, ho]
  | some c =>
    rw [customizeGuard, hcs] at hc
    simp at hc
    simp [prepareChartCustomize, hcs, hc, ho]

/-- When the customize guard fails and an oss source is set, the chain ends
in the oss case. -/
theorem prepareChartCustomize_oss (env : PrepEnv) (hr : HelmRelease) (o : Oss)
    (hc : customizeGuard hr.spec = false) (ho : hr.spec.oss = some o) :
    prepareChartCustomize env hr = prepareChartOss env hr o := by
  cases hcs : hr.spec.customize with
  | none => simp [prepareChartCustomize, hcs, ho]
  | some c =>
    rw [customizeGuard, hcs] at hc
    simp at hc
    simp [prepareChartCustomize, hcs, hc, ho]

/-- C4 amended: an absent (or guard-invalid) chart source yields the
no-valid-chart-source error with no fetch performed; when several sources
are set, the first matching case in the fixed order git, repo, customize,
oss is used rather than an error being returned; with exactly one valid
source set, that source is used (an oss source with an unknown cloud
provider errors before any fetch). -/
theorem c4_source_selection (cfg : PrepCfg) (env : PrepEnv) (hr : HelmRelease) :
    (gitGuard hr.spec = false → repoGuard hr.spec = false →
      customizeGuard hr.spec = false → hr.spec.oss = none →
      prepareChart cfg env hr = (.error .noValidSource, []))
    ∧ (gitGuard hr.spec = true →
      (prepareChart cfg env hr).2.head? = some .gitMirrorFetch)
    ∧ (gitGuard hr.spec = false → repoGuard hr.spec = true →
      (prepareChart cfg env hr).2.head? = some .repoFetch)
    ∧ (gitGuard hr.spec = false → repoGuard hr.spec = false →
      customizeGuard hr.spec = true →
      (prepareChart cfg env hr).2.head? = some .customizeDownload)
    ∧ (∀ o, gitGuard hr.spec = false → repoGuard hr.spec = false →
      customizeGuard hr.spec = false → hr.spec.oss = some o →
      ((o.cloudProvider = "aliyun" ∨ o.cloudProvider = "huaweiyun") →
        (prepareChart cfg env hr).2.head? = some .ossDownload)
      ∧ (o.cloudProvider ≠ "aliyun" → o.cloudProvider ≠ "huaweiyun" →
        prepareChart cfg env hr = (.error .unknownCloudProvider, []))) := by
  refine ⟨?_, ?_, ?_, ?_, ?_⟩
  · intro hg hrp hc ho
    rw [prepareChart_no_git cfg env hr hg, prepareChartRepo_no_repo env hr hrp,
      prepareChartCustomize_no_source env hr hc ho]
  · intro hg
    cases hgs : hr.spec.gitChartSource with
    | none => rw [gitGuard, hgs] at hg; exact absurd hg (by simp)
    | some g =>
      rw [gitGuard, hgs] at hg
      simp at hg
      obtain ⟨h1, h2⟩ := hg
      rcases hm : env.gitMirror with e | ⟨dir, revision⟩ <;>
        by_cases hd : (cfg.updateDeps && !g.skipDepUpdate) = true <;>
          rcases hdep : env.depUpdateRes with e2 | u <;>
            simp [prepareChart, hgs, h1, h2, hm, hd, hdep]
  · intro hg hrp
    rw [prepareChart_no_git cfg env hr hg]
    rcases hf : env.ensureChartFetched with e | cp <;>
      rcases hrev : env.chartRevision with e2 | rev <;>
        simp [prepareChartRepo, hrp, hf, hrev]
  · intro hg hrp hc
    rw [prepareChart_no_git cfg env hr hg, prepareChartRepo_no_repo env hr hrp]
    cases hcs : hr.spec.customize with
    | none => rw [customizeGuard, hcs] at hc; exact absurd hc (by simp)
    | some c =>
      rw [customizeGuard, hcs] at hc
      simp at hc
      rcases hf : env.downloadFileRes with e | cp <;>
        rcases hrev : env.chartRevision with e2 | rev <;>
          simp [prepareChartCustomize, hcs, hc, hf, hrev]
  · intro o hg hrp hc ho
    have hpc : prepareChart cfg env hr = prepareChartOss env hr o := by
      rw [prepareChart_no_git cfg env hr hg, prepareChartRepo_no_repo env hr hrp,
        prepareChartCustomize_oss env hr o hc ho]
    constructor
    · intro hcp
      rw [hpc]
      rcases hf : env.ossDownloadRes with e | cp <;>
        rcases hrev : env.chartRevision with e2 | rev <;>
          rcases hcp with h | h <;>
            simp [prepareChartOss, h, hf, hrev]
    · intro h1 h2
      simp [hpc, prepareChartOss, h1, h2]

/-- C4 amended witness: the no-source error and the git-priority selection
on concrete inputs. -/
theorem c4_source_selection_witness :
    prepareChart prepCfg prepEnvOk hrSynced = (.error .noValidSource, [])
    ∧ (prepareChart prepCfg prepEnvOk hrTwoSources).2.head? = some .gitMirrorFetch :=
  ⟨(c4_source_selection prepCfg prepEnvOk hrSynced).1 rfl rfl rfl rfl,
   (c4_source_selection prepCfg prepEnvOk hrTwoSources).2.1 rfl⟩

/-! ## C9: post-render label injection -/

/-- Setting a key makes it readable. -/
theorem smap_get_set_self (m : Smap) (k v : String) : (m.set k v).get k = some v := by
  simp [Smap.set, Smap.get]

/-- Setting a key leaves other keys unchanged. -/
theorem smap_get_set_ne (m : Smap) (k kd v : String) (h : kd ≠ k) :
    (m.set k v).get kd = m.get kd := by
  simp [Smap.set, Smap.get, Ne.symm h]
  induction m with
  | nil => simp
  | cons a m ih =>
    by_cases hk : a.1 = kd
    · simp [List.find?_cons, hk, h]
    · simp [List.find?_cons, hk, ih]

/-- The app/component injection of `appInfoInject` survives
`istioInjectHandle`, which only ever adds the istio label or returns the
document unchanged. -/
theorem istioInjectHandle_app_labels (env : IstioEnv) (t : UDoc) (flag : Bool) :
    ((istioInjectHandle env t flag).1.matchLabels.getD []).get AppIdLabelKey =
      (t.matchLabels.getD []).get AppIdLabelKey
    ∧ ((istioInjectHandle env t flag).1.matchLabels.getD []).get ComponentIdLabelKey =
      (t.matchLabels.getD []).get ComponentIdLabelKey
    ∧ ((istioInjectHandle env t flag).1.templateLabels.getD []).get AppIdLabelKey =
      (t.templateLabels.getD []).get AppIdLabelKey
    ∧ ((istioInjectHandle env t flag).1.templateLabels.getD []).get ComponentIdLabelKey =
      (t.templateLabels.getD []).get ComponentIdLabelKey
    ∧ (istioInjectHandle env t flag).1.labels = t.labels
    ∧ (istioInjectHandle env t flag).1.anns = t.anns
    ∧ (istioInjectHandle env t flag).1.kind = t.kind := by
  have happ : IstioEnableLabelKey ≠ AppIdLabelKey := by decide
  have hcmp : IstioEnableLabelKey ≠ ComponentIdLabelKey := by decide
  have base : ∀ u : UDoc, u = istioInject t → (u.matchLabels.getD []).get AppIdLabelKey =
      (t.matchLabels.getD []).get AppIdLabelKey
      ∧ (u.matchLabels.getD []).get ComponentIdLabelKey =
        (t.matchLabels.getD []).get ComponentIdLabelKey
      ∧ (u.templateLabels.getD []).get AppIdLabelKey =
        (t.templateLabels.getD []).get AppIdLabelKey
      ∧ (u.templateLabels.getD []).get ComponentIdLabelKey =
        (t.templateLabels.getD []).get ComponentIdLabelKey
      ∧ u.labels = t.labels ∧ u.anns = t.anns ∧ u.kind = t.kind := by
    intro u hu
    subst hu
    refine ⟨?_, ?_, ?_, ?_, rfl, rfl, rfl⟩ <;>
      simp [istioInject, smap_get_set_ne _ _ _ _ (Ne.symm happ),
        smap_get_set_ne _ _ _ _ (Ne.symm hcmp)]
  rcases env with ⟨live, deleteRes⟩
  cases live with
  | lookupErr => exact ⟨rfl, rfl, rfl, rfl, rfl, rfl, rfl⟩
  | notFound =>
    cases flag with
    | false => exact ⟨rfl, rfl, rfl, rfl, rfl, rfl, rfl⟩
    | true => simpa [istioInjectHandle] using base (istioInject t) rfl
  | found tmpl =>
    cases flag with
    | true =>
      by_cases hv : (tmpl.getD []).get IstioEnableLabelKey = some IstioEnableLabelValue
      · simpa [istioInjectHandle, hv] using base (istioInject t) rfl
      · cases hd : deleteRes with
        | error e => simp [istioInjectHandle, hv, hd]
        | ok u => simpa [istioInjectHandle, hv, hd] using base (istioInject t) rfl
    | false =>
      by_cases hv : (tmpl.getD []).get IstioEnableLabelKey = some IstioEnableLabelValue
      · cases hd : deleteRes with
        | error e => simp [istioInjectHandle, hv, hd]
        | ok u => simp [istioInjectHandle, hv, hd]
      · simp [istioInjectHandle, hv]

/-- C9: the post-render transformer sets the top-level `appId` and
`componentId` labels on every document (also when the spec values are
empty strings), and on every StatefulSet or Deployment document
additionally sets the `logCollect` annotation to the stringified boolean
and injects `appId`/`componentId` into both the selector match labels and
the pod template labels. -/
theorem c9_postrender_injection (spec : HelmReleaseSpec) (envf : UDoc → IstioEnv)
    (docs : List UDoc) (v : UDoc)
    (hv : v ∈ getAppManagerPostRenderer spec true envf docs) :
    (v.labels.getD []).get AppIdLabelKey = some spec.appId
    ∧ (v.labels.getD []).get ComponentIdLabelKey = some spec.componentId
    ∧ (v.kind = "StatefulSet" ∨ v.kind = "Deployment" →
      (v.anns.getD []).get LogCollectAnnotateKey =
        some (if spec.logCollect then "true" else "false")
      ∧ (v.matchLabels.getD []).get AppIdLabelKey = some spec.appId
      ∧ (v.matchLabels.getD []).get ComponentIdLabelKey = some spec.componentId
      ∧ (v.templateLabels.getD []).get AppIdLabelKey = some spec.appId
      ∧ (v.templateLabels.getD []).get ComponentIdLabelKey = some spec.componentId) := by
  have hac : AppIdLabelKey ≠ ComponentIdLabelKey := by decide
  have hlc : LogCollectAnnotateKey ≠ LogCollectAnnotateKey → False := fun h => h rfl
  rw [getAppManagerPostRenderer, if_pos rfl] at hv
  obtain ⟨u, hu, rfl⟩ := List.mem_map.mp hv
  set env := envf u with henv
  clear hu hv
  rw [renderDoc]
  set labels := ((u.labels.getD []).set AppIdLabelKey spec.appId).set
    ComponentIdLabelKey spec.componentId with hlab
  have hl1 : labels.get AppIdLabelKey = some spec.appId := by
    rw [hlab, smap_get_set_ne _ _ _ _ hac, smap_get_set_self]
  have hl2 : labels.get ComponentIdLabelKey = some spec.componentId := smap_get_set_self _ _ _
  set u1 : UDoc := { u with labels := some labels } with hu1
  by_cases hk : u1.kind = "StatefulSet" ∨ u1.kind = "Deployment"
  · rw [if_pos hk]
    set u2 : UDoc := { u1 with anns := some ((u1.anns.getD []).set LogCollectAnnotateKey
        (if spec.logCollect then "true" else "false")) } with hu2
    have hk2 : u2.kind = "StatefulSet" ∨ u2.kind = "Deployment" := hk
    rw [if_pos hk2]
    set t := appInfoInject spec u2 with ht
    obtain ⟨e1, e2, e3, e4, e5, e6, e7⟩ :=
      istioInjectHandle_app_labels env t spec.istioEnabled
    have htm : (t.matchLabels.getD []).get AppIdLabelKey = some spec.appId
        ∧ (t.matchLabels.getD []).get ComponentIdLabelKey = some spec.componentId
        ∧ (t.templateLabels.getD []).get AppIdLabelKey = some spec.appId
        ∧ (t.templateLabels.getD []).get ComponentIdLabelKey = some spec.componentId := by
      rw [ht]
      refine ⟨?_, ?_, ?_, ?_⟩ <;>
        simp [appInfoInject, smap_get_set_self, smap_get_set_ne _ _ _ _ hac]
    have hlt : t.labels = some labels := rfl
    have hat : t.anns = some ((u1.anns.getD []).set LogCollectAnnotateKey
        (if spec.logCollect then "true" else "false")) := rfl
    refine ⟨?_, ?_, fun _ => ⟨?_, ?_, ?_, ?_, ?_⟩⟩
    · rw [e5, hlt]
      simpa using hl1
    · rw [e5, hlt]
      simpa using hl2
    · rw [e6, hat]
      simp [smap_get_set_self]
    · rw [e1]
      exact htm.1
    · rw [e2]
      exact htm.2.1
    · rw [e3]
      exact htm.2.2.1
    · rw [e4]
      exact htm.2.2.2
  · rw [if_neg hk]
    have hk1 : ¬(u1.kind = "StatefulSet" ∨ u1.kind = "Deployment") := hk
    rw [if_neg hk1]
    exact ⟨by simpa using hl1, by simpa using hl2, fun h => absurd h hk⟩

/-- The spec values used by the C9 witness. -/
def specApp : HelmReleaseSpec :=
  { specNoSrc with appId := "A1", componentId := "K1", logCollect := true }

/-- A Deployment document with no label maps at all. -/
def docDeploy : UDoc := ⟨"Deployment", "web", none, none, none, none⟩

/-- A live-cluster environment where the workload does not exist yet. -/
def istioEnvNotFound : IstioEnv := ⟨.notFound, .ok ()⟩

/-- C9 witness: the injected labels and annotation on a concrete Deployment
document. -/
theorem c9_postrender_injection_witness :
    (((renderDoc specApp istioEnvNotFound docDeploy).labels.getD []).get AppIdLabelKey
        = some specApp.appId)
    ∧ (((renderDoc specApp istioEnvNotFound docDeploy).anns.getD []).get LogCollectAnnotateKey
        = some (if specApp.logCollect then "true" else "false"))
    ∧ (((renderDoc specApp istioEnvNotFound docDeploy).templateLabels.getD []).get
        AppIdLabelKey = some specApp.appId) := by
  have h := c9_postrender_injection specApp (fun _ => istioEnvNotFound) [docDeploy]
    (renderDoc specApp istioEnvNotFound docDeploy)
    (by simp [getAppManagerPostRenderer])
  exact ⟨h.1, (h.2.2 (by decide)).1, (h.2.2 (by decide)).2.2.2.1⟩

/-! ## C6, C8, C10: credential envelope lemmas -/

/-- Bytes are closed under XOR. -/
theorem xor_lt_256 {a b : Nat} (ha : a < 256) (hb : b < 256) : a ^^^ b < 256 := by
  have he : a ^^^ b = Nat.bitwise bne a b := rfl
  have h2 : (256 : Nat) = 2 ^ 8 := by norm_num
  rw [he, h2]
  rw [h2] at ha hb
  exact Nat.bitwise_lt ha hb

/-- Pointwise XOR of byte lists yields bytes. -/
theorem zipWith_xor_lt : ∀ (l1 l2 : List Nat), (∀ x ∈ l1, x < 256) → (∀ x ∈ l2, x < 256) →
    ∀ y ∈ List.zipWith Nat.xor l1 l2, y < 256
  | [], _, _, _ => by simp
  | _ :: _, [], _, _ => by simp
  | a :: l1, b :: l2, h1, h2 => by
    intro y hy
    rw [List.zipWith_cons_cons] at hy
    rcases List.mem_cons.mp hy with rfl | hy
    · exact xor_lt_256 (h1 a (by simp)) (h2 b (by simp))
    · exact zipWith_xor_lt l1 l2 (fun x hx => h1 x (by simp [hx]))
        (fun x hx => h2 x (by simp [hx])) y hy

/-- XORing twice with the same list gives the original back. -/
theorem zipWith_xor_cancel : ∀ (l iv : List Nat), l.length ≤ iv.length →
    List.zipWith Nat.xor (List.zipWith Nat.xor l iv) iv = l
  | [], _, _ => by simp
  | a :: l, [], h => by simp at h
  | a :: l, b :: iv, h => by
    simp only [List.zipWith_cons_cons]
    exact List.cons_eq_cons.mpr
      ⟨Nat.xor_cancel_right b a, zipWith_xor_cancel l iv (by simpa using h)⟩

/-- The sextets produced by the encoder are six-bit values. -/
theorem b64EncSextets_lt : ∀ (bs : List Nat), (∀ x ∈ bs, x < 256) →
    ∀ y ∈ b64EncSextets bs, y < 64
  | [], _ => by simp [b64EncSextets]
  | [a], h => by
    have ha := h a (by simp)
    intro y hy
    simp [b64EncSextets] at hy
    rcases hy with rfl | rfl <;> omega
  | [a, b], h => by
    have ha := h a (by simp)
    have hb := h b (by simp)
    intro y hy
    simp [b64EncSextets] at hy
    rcases hy with rfl | rfl | rfl <;> omega
  | a :: b :: c :: rest, h => by
    have ha := h a (by simp)
    have hb := h b (by simp)
    have hc := h c (by simp)
    intro y hy
    simp only [b64EncSextets, List.mem_cons] at hy
    rcases hy with rfl | rfl | rfl | rfl | hy
    · omega
    · omega
    · omega
    · omega
    · exact b64EncSextets_lt rest (fun x hx => h x (by simp [hx])) y hy

/-- Decoding the encoder's sextets recovers the bytes. -/
theorem b64DecSextets_enc : ∀ (bs : List Nat), (∀ x ∈ bs, x < 256) →
    b64DecSextets (b64EncSextets bs) = some bs
  | [], _ => by simp [b64EncSextets, b64DecSextets]
  | [a], h => by
    have ha := h a (by simp)
    simp [b64EncSextets, b64DecSextets]
    omega
  | [a, b], h => by
    have ha := h a (by simp)
    have hb := h b (by simp)
    simp [b64EncSextets, b64DecSextets]
    constructor <;> omega
  | a :: b :: c :: rest, h => by
    have ha := h a (by simp)
    have hb := h b (by simp)
    have hc := h c (by simp)
    have ih := b64DecSextets_enc rest (fun x hx => h x (by simp [hx]))
    simp only [b64EncSextets, b64DecSextets, ih, Option.map_some]
    refine congrArg some ?_
    refine List.cons_eq_cons.mpr ⟨by omega, ?_⟩
    refine List.cons_eq_cons.mpr ⟨by omega, ?_⟩
    exact List.cons_eq_cons.mpr ⟨by omega, rfl⟩

/-- Each URL-safe alphabet character decodes back to its sextet value. -/
theorem charSextet_sextetChar_url : ∀ i < 64,
    charSextet b64URLAlphabet (sextetChar b64URLAlphabet i) = some i := by decide

/-- Mapping sextets to characters and back is the identity. -/
theorem mapOption_charSextet_url : ∀ (l : List Nat), (∀ x ∈ l, x < 64) →
    mapOption (charSextet b64URLAlphabet) (l.map (sextetChar b64URLAlphabet)) = some l
  | [], _ => rfl
  | a :: l, h => by
    have ha := charSextet_sextetChar_url a (h a (by simp))
    have ih := mapOption_charSextet_url l (fun x hx => h x (by simp [hx]))
    simp [mapOption, ha, ih]

/-- Decoding the raw-URL encoding of a byte list recovers the bytes. -/
theorem rawURLDecode_encode (bs : List Nat) (h : ∀ x ∈ bs, x < 256) :
    rawURLDecode (rawURLEncode bs) = some bs := by
  have h64 := b64EncSextets_lt bs h
  have hdec := b64DecSextets_enc bs h
  have hmap := mapOption_charSextet_url (b64EncSextets bs) h64
  rw [rawURLEncode, rawURLDecode]
  have hdata : (String.mk ((b64EncSextets bs).map (sextetChar b64URLAlphabet))).data
      = (b64EncSextets bs).map (sextetChar b64URLAlphabet) := rfl
  rw [hdata, hmap]
  exact hdec

/-- `cbcEncryptBlocks` of the empty input. -/
theorem cbcEncryptBlocks_nil (encB : List Nat → List Nat) (iv : List Nat) :
    cbcEncryptBlocks encB iv [] = [] := by
  rw [cbcEncryptBlocks]
  simp

/-- `cbcDecryptBlocks` of the empty input. -/
theorem cbcDecryptBlocks_nil (decB : List Nat → List Nat) (iv : List Nat) :
    cbcDecryptBlocks decB iv [] = [] := by
  rw [cbcDecryptBlocks]
  simp

/-- `cbcEncryptBlocks` on a nonempty input peels one block. -/
theorem cbcEncryptBlocks_cons (encB : List Nat → List Nat) (iv input : List Nat)
    (h : input ≠ []) :
    cbcEncryptBlocks encB iv input =
      encB (List.zipWith Nat.xor (input.take 16) iv) ++
        cbcEncryptBlocks encB (encB (List.zipWith Nat.xor (input.take 16) iv))
          (input.drop 16) := by
  have he : input.isEmpty = false := by
    cases input with
    | nil => exact absurd rfl h
    | cons a l => rfl
  rw [cbcEncryptBlocks, he]
  simp

/-- `cbcDecryptBlocks` on a nonempty input peels one block. -/
theorem cbcDecryptBlocks_cons (decB : List Nat → List Nat) (iv input : List Nat)
    (h : input ≠ []) :
    cbcDecryptBlocks decB iv input =
      List.zipWith Nat.xor (decB (input.take 16)) iv ++
        cbcDecryptBlocks decB (input.take 16) (input.drop 16) := by
  have he : input.isEmpty = false := by
    cases input with
    | nil => exact absurd rfl h
    | cons a l => rfl
  rw [cbcDecryptBlocks, he]
  simp

/-- CBC decryption undoes CBC encryption under an inverse block cipher that
preserves block length and byteness; the ciphertext also keeps the input
length and stays within bytes. -/
theorem cbc_cancel (encB decB : List Nat → List Nat)
    (hlen : ∀ b, b.length = 16 → (encB b).length = 16)
    (hbound : ∀ b, b.length = 16 → (∀ x ∈ b, x < 256) → ∀ y ∈ encB b, y < 256)
    (hinv : ∀ b, b.length = 16 → decB (encB b) = b) :
    ∀ (input iv : List Nat), input.length % 16 = 0 → iv.length = 16 →
      (∀ x ∈ input, x < 256) → (∀ x ∈ iv, x < 256) →
      cbcDecryptBlocks decB iv (cbcEncryptBlocks encB iv input) = input
      ∧ (cbcEncryptBlocks encB iv input).length = input.length
      ∧ (∀ y ∈ cbcEncryptBlocks encB iv input, y < 256) := by
  suffices H : ∀ (n : Nat) (input iv : List Nat), input.length = n →
      input.length % 16 = 0 → iv.length = 16 →
      (∀ x ∈ input, x < 256) → (∀ x ∈ iv, x < 256) →
      cbcDecryptBlocks decB iv (cbcEncryptBlocks encB iv input) = input
      ∧ (cbcEncryptBlocks encB iv input).length = input.length
      ∧ (∀ y ∈ cbcEncryptBlocks encB iv input, y < 256) by
    intro input iv h1 h2 h3 h4
    exact H input.length input iv rfl h1 h2 h3 h4
  intro n
  induction n using Nat.strong_induction_on with
  | _ n ih =>
    intro input iv hn hmod hivlen hin hivb
    by_cases hemp : input = []
    · subst hemp
      refine ⟨?_, ?_, ?_⟩ <;> simp [cbcEncryptBlocks_nil, cbcDecryptBlocks_nil]
    · have hlen0 : 0 < input.length := List.length_pos.mpr hemp
      have h16 : 16 ≤ input.length := by omega
      have htake_len : (input.take 16).length = 16 := by
        rw [List.length_take]
        omega
      have hx_len : (List.zipWith Nat.xor (input.take 16) iv).length = 16 := by
        rw [List.length_zipWith, htake_len, hivlen]
        simp
      have htake_b : ∀ x ∈ input.take 16, x < 256 :=
        fun x hx => hin x (List.take_subset _ _ hx)
      have hx_b : ∀ x ∈ List.zipWith Nat.xor (input.take 16) iv, x < 256 :=
        zipWith_xor_lt _ _ htake_b hivb
      have hc_len : (encB (List.zipWith Nat.xor (input.take 16) iv)).length = 16 :=
        hlen _ hx_len
      have hc_b : ∀ x ∈ encB (List.zipWith Nat.xor (input.take 16) iv), x < 256 :=
        hbound _ hx_len hx_b
      have hdrop_len : (input.drop 16).length = input.length - 16 := List.length_drop _ _
      have hdrop_mod : (input.drop 16).length % 16 = 0 := by
        rw [hdrop_len]
        omega
      have hdrop_b : ∀ x ∈ input.drop 16, x < 256 :=
        fun x hx => hin x (List.drop_subset _ _ hx)
      obtain ⟨ih1, ih2, ih3⟩ := ih (input.length - 16) (by omega) (input.drop 16)
        (encB (List.zipWith Nat.xor (input.take 16) iv)) (by rw [hdrop_len])
        hdrop_mod hc_len hdrop_b hc_b
      rw [cbcEncryptBlocks_cons encB iv input hemp]
      have hne : encB (List.zipWith Nat.xor (input.take 16) iv) ++
          cbcEncryptBlocks encB (encB (List.zipWith Nat.xor (input.take 16) iv))
            (input.drop 16) ≠ [] := by
        intro hcontra
        have hl := congrArg List.length hcontra
        rw [List.length_append, hc_len] at hl
        simp at hl
      refine ⟨?_, ?_, ?_⟩
      · rw [cbcDecryptBlocks_cons decB iv _ hne, List.take_left' hc_len,
          List.drop_left' hc_len, hinv _ hx_len,
          zipWith_xor_cancel _ _ (by rw [htake_len, hivlen]), ih1]
        exact List.take_append_drop 16 input
      · rw [List.length_append, hc_len, ih2, hdrop_len]
        omega
      · intro y hy
        rcases List.mem_append.mp hy with hy | hy
        · exact hc_b y hy
        · exact ih3 y hy

/-- The PKCS7-padded buffer is a whole number of blocks. -/
theorem pkcs7Pad_mod (p : List Nat) : (pkcs7Pad 16 p).length % 16 = 0 := by
  simp only [pkcs7Pad, List.length_append, List.length_replicate]
  omega

/-- The PKCS7-padded buffer stays within bytes. -/
theorem pkcs7Pad_lt (p : List Nat) (h : ∀ x ∈ p, x < 256) :
    ∀ x ∈ pkcs7Pad 16 p, x < 256 := by
  intro x hx
  simp only [pkcs7Pad, List.mem_append] at hx
  rcases hx with hx | hx
  · exact h x hx
  · have := List.eq_of_mem_replicate hx
    omega

/-- Unpadding undoes PKCS7 padding. -/
theorem pkcs7UnPad_pad (p : List Nat) : PKCS7UnPadding (pkcs7Pad 16 p) = some p := by
  obtain ⟨m, hm⟩ : ∃ m, 16 - p.length % 16 = m + 1 := ⟨16 - p.length % 16 - 1, by omega⟩
  simp only [pkcs7Pad]
  rw [hm]
  have hlast : (p ++ List.replicate (m + 1) (m + 1)).getLast? = some (m + 1) := by
    rw [List.replicate_succ', ← List.append_assoc]
    exact List.getLast?_concat _
  have hlen : (p ++ List.replicate (m + 1) (m + 1)).length = p.length + (m + 1) := by
    rw [List.length_append, List.length_replicate]
  simp only [PKCS7UnPadding, hlast]
  rw [if_neg (by rw [hlen]; omega)]
  have hsub : (p ++ List.replicate (m + 1) (m + 1)).length - (m + 1) = p.length := by
    rw [hlen]
    omega
  rw [hsub, List.take_left' rfl]

/-- C6: for every plaintext, decrypting the credential envelope built in
the specified mode — AES-CBC under the fixed key `"2367943245267894"` with
IV equal to the key, PKCS7 padding, URL-safe unpadded base64 — with the
CBC credential decoder yields the plaintext again, for any block cipher
pair that is inverse, length-preserving and byte-valued on blocks (as the
AES-128 primitive is). -/
theorem c6_credential_roundtrip (encB decB : List Nat → List Nat)
    (hlen : ∀ b, b.length = 16 → (encB b).length = 16)
    (hbound : ∀ b, b.length = 16 → (∀ x ∈ b, x < 256) → ∀ y ∈ encB b, y < 256)
    (hinv : ∀ b, b.length = 16 → decB (encB b) = b)
    (p : List Nat) (hp : ∀ x ∈ p, x < 256) :
    AesDecrypt decB (AesEncrypt encB p) = POr.ok p := by
  have hkeylen : aesKey.length = 16 := by decide
  have hkeyb : ∀ x ∈ aesKey, x < 256 := by decide
  obtain ⟨hrt, hlenE, hboundE⟩ := cbc_cancel encB decB hlen hbound hinv
    (pkcs7Pad 16 p) aesKey (pkcs7Pad_mod p) hkeylen (pkcs7Pad_lt p hp) hkeyb
  rw [AesEncrypt, AesDecrypt]
  rw [rawURLDecode_encode _ hboundE]
  simp only [Option.getD_some]
  rw [if_neg (by rw [hlenE, pkcs7Pad_mod]; simp)]
  rw [hrt, pkcs7UnPad_pad]

/-- C6 witness: the round trip at a concrete plaintext, instantiating the
block cipher with the identity (which satisfies the block-cipher
contract). -/
theorem c6_credential_roundtrip_witness :
    AesDecrypt (fun b => b) (AesEncrypt (fun b => b) [104, 101, 108, 108, 111]) =
      POr.ok [104, 101, 108, 108, 111] :=
  c6_credential_roundtrip (fun b => b) (fun b => b) (fun _ h => h)
    (fun _ _ hb => hb) (fun _ _ => rfl) [104, 101, 108, 108, 111] (by decide)

/-! ## C8: decoder panic behavior -/

/-- C8 counterexample: the `AesDecrypt` credential decoder has no recover,
and on the empty input the panic raised by `PKCS7UnPadding` (index out of
range on an empty buffer) propagates to the caller — refuting the claim
that every credential decoder returns without propagating a panic.  (The
block cipher is irrelevant here: the panic occurs before it could be
consulted; it is instantiated with the identity.) -/
theorem c8_counterexample : AesDecrypt (fun b => b) "" = POr.panicked := by
  have h : (rawURLDecode "").getD [] = ([] : List Nat) := rfl
  simp only [AesDecrypt, h, cbcDecryptBlocks_nil]
  rfl

/-- C8 amended: the `Decrypt` decoder in `pkg/chartsync/oss.go` recovers
every panic of its body (returning the zero values), so it never
propagates one; but the `AesDecrypt` decoder in the unnamed chartsync file
has no recover and its panics (e.g. during padding removal) escape. -/
theorem c8_decrypt_recovers (decB : List Nat → List Nat) (s : String) :
    (DecryptBody decB s = POr.panicked → Decrypt decB s = .ok [])
    ∧ (∀ r, DecryptBody decB s = POr.ok r → Decrypt decB s = r) := by
  constructor
  · intro h
    rw [Decrypt, h]
  · intro r h
    rw [Decrypt, h]

/-- C8 witness: an input whose body does panic (a 3-byte buffer making the
block loop slice past the end) is recovered into the zero-value result. -/
theorem c8_decrypt_recovers_witness :
    DecryptBody (fun b => b) "AAAA" = POr.panicked
    ∧ Decrypt (fun b => b) "AAAA" = .ok [] :=
  ⟨rfl, (c8_decrypt_recovers (fun b => b) "AAAA").1 rfl⟩

/-! ## C10: AckDecode frame -/

/-- C10: `AckDecode` leaves the spec entirely unchanged when
`ackEncrypted` is false, and when it is true and both decryptions succeed
it modifies only the `ackId` and `ackSecret` fields. -/
theorem c10_ackDecode_frame (decB : List Nat → List Nat) (o : Oss) :
    (o.ackEncrypted = false → AckDecode decB o = .ok o)
    ∧ (∀ o2, o.ackEncrypted = true → AckDecode decB o = .ok o2 →
      o2.cloudProvider = o.cloudProvider ∧ o2.regionId = o.regionId
      ∧ o2.bucket = o.bucket ∧ o2.key = o.key
      ∧ o2.ackEncrypted = o.ackEncrypted ∧ o2.useCache = o.useCache) := by
  constructor
  · intro h
    rw [AckDecode, h]
    simp
  · intro o2 he h
    rw [AckDecode, he] at h
    simp only [if_true] at h
    rcases h1 : Decrypt decB o.ackId with e | ackId
    · rw [h1] at h
      simp at h
    · rw [h1] at h
      rcases h2 : Decrypt decB o.ackSecret with e | ackSecret
      · rw [h2] at h
        simp at h
      · rw [h2] at h
        simp only [Except.ok.injEq] at h
        subst h
        exact ⟨rfl, rfl, rfl, rfl, by simp [he], rfl⟩

/-- An unencrypted oss spec fixture. -/
def ossPlain : Oss :=
  ⟨"aliyun", "cn-hangzhou", "bkt", "charts/app.tgz", "id123", "secret456", false, true⟩

/-- An encrypted oss spec fixture whose credentials decrypt successfully. -/
def ossEnc : Oss := { ossPlain with ackEncrypted := true, ackId := "", ackSecret := "" }

/-- `ecbDecryptBlocks` of the empty input. -/
theorem ecbDecryptBlocks_nil (decB : List Nat → List Nat) :
    ecbDecryptBlocks decB [] = [] := by
  rw [ecbDecryptBlocks]
  simp

/-- The empty credential decrypts to the empty plaintext. -/
theorem decrypt_empty (decB : List Nat → List Nat) : Decrypt decB "" = .ok [] := by
  have h : stdB64Decode "" = some [] := rfl
  simp only [Decrypt, DecryptBody, h, AESDecrypt, ecbDecryptBlocks_nil]
  rfl

/-- `AckDecode` on the encrypted fixture succeeds and rewrites only the
credential fields. -/
theorem ackDecode_ossEnc :
    AckDecode (fun b => b) ossEnc = .ok { ossEnc with ackId := "", ackSecret := "" } := by
  have h1 : Decrypt (fun b => b) ossEnc.ackId = .ok [] := decrypt_empty _
  have h2 : Decrypt (fun b => b) ossEnc.ackSecret = .ok [] := decrypt_empty _
  have he : ossEnc.ackEncrypted = true := rfl
  rw [AckDecode, he, if_pos rfl, h1, h2]
  rfl

/-- C10 witness: the unchanged case and the frame of the successful
encrypted case on concrete inputs. -/
theorem c10_ackDecode_frame_witness :
    ossPlain.ackEncrypted = false
    ∧ AckDecode (fun b => b) ossPlain = .ok ossPlain
    ∧ ({ ossEnc with ackId := "", ackSecret := "" } : Oss).bucket = ossEnc.bucket
    ∧ ({ ossEnc with ackId := "", ackSecret := "" } : Oss).key = ossEnc.key :=
  ⟨rfl,
   (c10_ackDecode_frame (fun b => b) ossPlain).1 rfl,
   ((c10_ackDecode_frame (fun b => b) ossEnc).2 _ rfl ackDecode_ossEnc).2.2.1,
   ((c10_ackDecode_frame (fun b => b) ossEnc).2 _ rfl ackDecode_ossEnc).2.2.2.1⟩

end HelmOperator
